import Mathlib

/-!
Verification of the MetaheuristicDesigner core against its specification.

The development shallowly embeds the Python sources:
  * `Individual.py` (class `Indiv`): lazily cached fitness, genotype setter,
    `store_best`, `reproduce`;
  * `Algorithms/ES.py` (class `ES`): `best_solution`, `perturb`, `__init__`;
  * `Operators/OperatorSplit.py` (class `OperatorSplit`): `evolve`;
  * `ObjectiveFunc.py` (class `ObjectiveFunc`): `__init__`, `fitness`, `penalize`.

Genotypes are modelled as `List Int` and fitness values as `Int`; numpy
arrays become lists, in-place attribute updates become explicit state
passing, and a Python statement that raises becomes `Except`.
-/

namespace MHD

/-- State of an `Indiv` object from `Individual.py`: the private `_genotype`
and `_fitness` fields, the `speed` vector, the `fitness_calculated` flag and
the `best` genotype. The `objfunc` and `operator` attributes are not stored;
they are passed explicitly to the operations that read them. -/
structure Indiv where
  genotype : List Int
  speed : List Int
  fitness_val : Int
  fitness_calculated : Bool
  best : List Int
deriving DecidableEq, Repr

/-- The `Indiv.__init__` constructor: stores the vector, defaults the speed to
`np.zeros_like(vector)` when absent, sets `_fitness = 0`,
`fitness_calculated = False` and `best = vector`. -/
def Indiv.init (vector : List Int) (speed : Option (List Int) := none) : Indiv :=
  { genotype := vector
    speed := speed.getD (List.replicate vector.length 0)
    fitness_val := 0
    fitness_calculated := false
    best := vector }

/-- The `Indiv.fitness` property getter (with its setter inlined, as the source
calls it). `f` stands for the objective-function call `self.objfunc(self)`,
modelled from the spec as a pure evaluation of the genotype, since the
ES/Individual-era `ObjectiveFunc.__call__` taking a single individual is not
among the sources. Returns the fitness value, the updated object state and the
number of objective-function invocations performed by this read. -/
def Indiv.getFitness (f : List Int → Int) (ind : Indiv) : Int × Indiv × Nat :=
  if ind.fitness_calculated then
    (ind.fitness_val, ind, 0)
  else
    let fit := f ind.genotype
    (fit, { ind with fitness_val := fit, fitness_calculated := true }, 1)

/-- The `Indiv.genotype` property setter: clears `fitness_calculated` and
replaces the private vector. -/
def Indiv.setGenotype (ind : Indiv) (vector : List Int) : Indiv :=
  { ind with fitness_calculated := false, genotype := vector }

/-- The `Indiv.store_best` method: `if self.fitness < past_indiv.fitness:
self.best = past_indiv.genotype`. Both fitness reads go through the cached
property, so the call returns the updated states of `self` and of
`past_indiv` (the reads may fill either cache). -/
def Indiv.storeBest (f : List Int → Int) (self past : Indiv) : Indiv × Indiv :=
  let rs := self.getFitness f
  let rp := past.getFitness f
  if rs.1 < rp.1 then
    ({ rs.2.1 with best := rp.2.1.genotype }, rp.2.1)
  else
    (rs.2.1, rp.2.1)

/-- The `Indiv.reproduce` method. `op` stands for
`self.operator(self, population, self.objfunc)`, which returns a new
individual, and `repair` for `self.objfunc.repair_solution`. The first two
statements build `new_indiv` and assign its repaired genotype through the
genotype setter; the `return` statement then reads the name `new_vector`,
which is bound nowhere in the function, so every call raises `NameError`
instead of returning an individual. -/
def Indiv.reproduce (op : Indiv → List Indiv → Indiv)
    (repair : List Int → List Int) (self : Indiv) (population : List Indiv) :
    Except String Indiv :=
  let new_indiv := op self population
  let _ := new_indiv.setGenotype (repair new_indiv.genotype)
  Except.error "NameError: name new_vector is not defined"

end MHD

namespace MHD

/-- Individual as handled by `Algorithms/ES.py`. The ES-era `Indiv` class
(whose genotype attribute is named `vector`) is not among the sources, only
this caller is; modelled from the spec, which only requires the genotype.
`Indiv(objfunc, new_solution)` becomes `ESIndiv.mk new_solution`. -/
structure ESIndiv where
  vector : List Int
deriving DecidableEq, Repr

/-- Objective function as consumed by `Algorithms/ES.py` (attributes `opt`
and `check_bounds`). Modelled from the spec: the ES-era `ObjectiveFunc` class
is not among the sources; only `ObjectiveFunc.py` of a later package is,
which names the mode attribute `mode` and the repair hook
`repair_solution`. -/
structure ESObjective where
  opt : String
  objective : List Int → Int
  penalize : List Int → Int
  check_bounds : List Int → List Int

/-- Adjusted fitness of an individual, the value of `c.fitness` inside ES.
Modelled from the spec (§3) and from `ObjectiveFunc.fitness` in the source:
the comparison fitness is `factor * (objective - penalize)` with
`factor = -1` exactly in minimize mode. -/
def ESObjective.fit (objf : ESObjective) (ind : ESIndiv) : Int :=
  (if objf.opt = "min" then -1 else 1) *
    (objf.objective ind.vector - objf.penalize ind.vector)

/-- Stable insertion of `x` into a descending-sorted list: `x` is placed
before the first element it is not strictly smaller than, so an element
inserted from further left in the original list precedes equal keys. -/
def insertDesc (key : α → Int) (x : α) : List α → List α
  | [] => [x]
  | y :: ys => if key x < key y then y :: insertDesc key x ys else x :: y :: ys

/-- Stable descending sort by key, the model of Python's
`sorted(population, reverse=True, key=...)` (Timsort is stable, and with
`reverse=True` equal elements keep their original order). -/
def sortDesc (key : α → Int) : List α → List α
  | [] => []
  | x :: xs => insertDesc key x (sortDesc key xs)

/-- The earliest element of the list attaining the maximal key: an element is
kept unless some strictly greater key occurs later. -/
def earliestMaxBy (key : α → Int) : List α → Option α
  | [] => none
  | x :: xs =>
    match earliestMaxBy key xs with
    | none => some x
    | some m => if key x < key m then some m else some x

/-- The `ES.best_solution` method: takes the head of the population sorted in
descending fitness order, and flips the sign of the reported fitness when the
objective is a minimization (`best_fitness *= -1`). Indexing `[0]` of an
empty population would raise, hence the `Option`. -/
def ES.bestSolution (objf : ESObjective) (population : List ESIndiv) :
    Option (List Int × Int) :=
  match sortDesc objf.fit population with
  | [] => none
  | best :: _ =>
    let bf := objf.fit best
    some (best.vector, if objf.opt = "min" then -bf else bf)

/-- The `params` dictionary of `ES.__init__`: presence of the keys
`popSize` and `offspringSize`. -/
structure ESParams where
  popSize : Option Nat := none
  offspringSize : Option Nat := none

/-- State of an `ES` object: the hyperparameters and operators stored by
`ES.__init__`, with the operators as functions from an individual and a
context population to a new solution vector (the `evolve` calls close over
the objective function argument). -/
structure ES where
  size : Nat
  n_offspring : Nat
  mutation_op : ESIndiv → List ESIndiv → List Int
  cross_op : ESIndiv → List ESIndiv → List Int
  objfunc : ESObjective
  population : List ESIndiv

/-- The `ES.__init__` constructor: `size` defaults to 100 when `popSize` is
absent, `n_offspring` defaults to `size` when `offspringSize` is absent. -/
def ES.init (objfunc : ESObjective)
    (mutation_op cross_op : ESIndiv → List ESIndiv → List Int)
    (params : ESParams) (population : List ESIndiv) : ES :=
  let size := params.popSize.getD 100
  { size := size
    n_offspring := params.offspringSize.getD size
    mutation_op := mutation_op
    cross_op := cross_op
    objfunc := objfunc
    population := population }

/-- One iteration of the body of the `while` loop in `ES.perturb`:
pick `parent1` by `random.choice(parent_list)` (the random draw `r` is
reduced modulo the list length), cross it against the parent list, clip with
`check_bounds`, wrap as an individual, mutate that individual against
`self.population`, clip again and wrap. -/
def ES.perturbStep (es : ES) (parent_list : List ESIndiv) (r : Nat) : ESIndiv :=
  let parent1 := parent_list.getD (r % parent_list.length) ⟨[]⟩
  let new_solution := es.cross_op parent1 parent_list
  let new_solution := es.objfunc.check_bounds new_solution
  let new_ind : ESIndiv := ⟨new_solution⟩
  let mutated := es.mutation_op new_ind es.population
  let mutated := es.objfunc.check_bounds mutated
  (⟨mutated⟩ : ESIndiv)

/-- The `while len(offspring) < self.size` loop of `ES.perturb`: each pass
appends exactly one new individual. `rng i` is the random draw used at the
iteration that sees `i` accumulated offspring. -/
def ES.perturbGo (es : ES) (parent_list : List ESIndiv) (rng : Nat → Nat)
    (offspring : List ESIndiv) : List ESIndiv :=
  if offspring.length < es.size then
    ES.perturbGo es parent_list rng
      (offspring ++ [es.perturbStep parent_list (rng offspring.length)])
  else offspring
termination_by es.size - offspring.length
decreasing_by simp; omega

/-- The `ES.perturb` method: runs the offspring loop from the empty list. -/
def ES.perturb (es : ES) (parent_list : List ESIndiv) (rng : Nat → Nat) :
    List ESIndiv :=
  es.perturbGo parent_list rng []

end MHD

namespace MHD

/-- Individual as handled by `Operators/OperatorSplit.py`: only the
`genotype` attribute is touched. -/
structure SplitIndiv where
  genotype : List Int
deriving DecidableEq, Repr

/-- A constituent operator of an `OperatorSplit`: its `evolve` method,
returning an individual (`aux_indiv`); the objective function and global
best arguments are closed over. -/
structure SplitOp where
  evolve : SplitIndiv → List SplitIndiv → SplitIndiv

/-- State of an `OperatorSplit` object: the stored operator list and the
position mask. -/
structure OperatorSplit where
  op_list : List SplitOp
  mask : List Nat

/-- The `OperatorSplit.evolve` method as written: its first statement
iterates over the bare name `op_list`, which is bound neither locally nor
globally (the attribute is `self.op_list`), so every call raises `NameError`
before any loop iteration runs; the `return result` statement likewise
references an unbound name. -/
def OperatorSplit.evolveRun (_self : OperatorSplit) (_indiv : SplitIndiv)
    (_population : List SplitIndiv) : Except String SplitIndiv :=
  Except.error "NameError: name op_list is not defined"

/-- The numpy masked assignment
`indiv.genotype[self.mask == idx] = aux_indiv.genotype[self.mask == idx]`:
positions whose mask entry equals `idx` take the new value, the others keep
the current one. -/
def maskedWrite (mask : List Nat) (idx : Nat) (cur upd : List Int) : List Int :=
  (mask.zip (cur.zip upd)).map (fun p => if p.1 = idx then p.2.2 else p.2.1)

/-- The loop of `OperatorSplit.evolve` (lines 32 to 34) under the charitable
reading that binds the unbound name `op_list` to `self.op_list`, so that the
loop body is reachable: each operator is evolved against the individual in
its current state, and the masked positions of `indiv.genotype` are
overwritten in place, so later operators see earlier operators' writes. The
returned state is the state of the caller's `indiv` after the loop. -/
def OperatorSplit.evolveLoop (self : OperatorSplit) (indiv : SplitIndiv)
    (population : List SplitIndiv) : SplitIndiv :=
  self.op_list.enum.foldl
    (fun ind p =>
      let aux_indiv := p.2.evolve ind population
      ⟨maskedWrite self.mask p.1 ind.genotype aux_indiv.genotype⟩)
    indiv

/-- Modelled from the spec (§4.2 masked combination): the intended
parallel-composition semantics of `OperatorSplit.evolve`, which the source
method does not implement. Every constituent operator is evaluated against
the same original individual and population, and position `pos` of the
result takes the value that the operator indexed by `mask[pos]` produced at
`pos`. -/
def maskedCombine (ops : List SplitOp) (mask : List Nat) (indiv : SplitIndiv)
    (population : List SplitIndiv) : List Int :=
  mask.enum.map (fun p =>
    (((ops.getD p.2 ⟨fun i _ => i⟩).evolve indiv population).genotype).getD p.1 0)

end MHD

namespace MHD

/-- State of a `Population` object as read by `ObjectiveFunc.fitness`: the
fitness array, the `fitness_calculated` flag array (numpy 0/1, modelled as
`Bool`), the decoded solutions (`population.decode()`, modelled as the
stored genotypes) and `pop_size`. -/
structure Population where
  fitness : List Int
  fitness_calculated : List Bool
  genotypes : List (List Int)
  pop_size : Nat

/-- State of an `ObjectiveFunc` object from `ObjectiveFunc.py`: the fields
assigned by `__init__` plus the `objective` and `penalize` methods of the
concrete subclass; `penalize` defaults to the base-class implementation,
which returns 0 on every input. -/
structure ObjectiveFunc where
  name : String
  counter : Int
  factor : Int
  vectorized : Bool
  recalculate : Bool
  mode : String
  objective : List Int → Int
  penalize : List Int → Int := fun _ => 0

/-- The `ObjectiveFunc.__init__` constructor: stores the fields with
`counter = 0` and `factor = 1`, raises `ValueError` when `mode` is neither
`"max"` nor `"min"` (so no usable object is produced), and sets
`factor = -1` in minimize mode. -/
def ObjectiveFunc.init (objective : List Int → Int) (mode : String := "max")
    (name : String := "some function") (vectorized : Bool := false)
    (recalculate : Bool := false) (penalize : List Int → Int := fun _ => 0) :
    Except String ObjectiveFunc :=
  let f : ObjectiveFunc :=
    { name := name, counter := 0, factor := 1, vectorized := vectorized
      recalculate := recalculate, mode := mode, objective := objective
      penalize := penalize }
  if mode ≠ "max" ∧ mode ≠ "min" then
    Except.error "ValueError: Optimization objective (mode) must be \"min\" or \"max\"."
  else if mode = "min" then
    Except.ok { f with factor := -1 }
  else
    Except.ok f

/-- The non-vectorized evaluation loop of `ObjectiveFunc.fitness`
(`for idx, (solution, already_calculated) in enumerate(zip(...))`): entry
`idx` of the fitness array is overwritten with the (possibly adjusted)
objective value when `recalculate or not already_calculated`, and kept
otherwise. The recursion stops when any of the zipped lists is exhausted,
like `zip`. -/
def fitnessLoop (f : ObjectiveFunc) (adjusted : Bool) :
    List (List Int) → List Bool → List Int → List Int
  | s :: ss, c :: cs, old :: olds =>
    (if f.recalculate || !c then
       let value := f.objective s
       if adjusted then f.factor * (value - f.penalize s) else value
     else old) :: fitnessLoop f adjusted ss cs olds
  | _, _, _ => []

/-- Number of objective evaluations performed by the non-vectorized loop of
`ObjectiveFunc.fitness`: one per entry passing the
`recalculate or not already_calculated` test. -/
def fitnessLoopCount (f : ObjectiveFunc) : List (List Int) → List Bool → Nat
  | _ :: ss, c :: cs => (if f.recalculate || !c then 1 else 0) + fitnessLoopCount f ss cs
  | _, _ => 0

/-- The numpy masked assignment `fitness[population.fitness_calculated == 0]
= fitness_new`: positions whose flag is unset take successive entries of the
new array, flagged positions keep their old value. -/
def scatterNotCalc : List Bool → List Int → List Int → List Int
  | c :: cs, o :: os, upd =>
    if c then o :: scatterNotCalc cs os upd
    else
      match upd with
      | [] => o :: scatterNotCalc cs os []
      | v :: vs => v :: scatterNotCalc cs os vs
  | _, os, _ => os

/-- The `ObjectiveFunc.fitness` method. Returns the fitness array it
returns, the updated objective-function state (`counter` incremented), the
updated population state (`fitness_calculated` set to all ones; the fitness
array written through the `fitness = population.fitness` alias by the
elementwise and masked assignments, but not by the rebinding
`fitness = fitness_new` of the vectorized non-recalculate path), and the
number of solutions passed to `objective` during the call. The vectorized
batch call `self.objective(solutions)` is modelled elementwise, per spec §5
(vectorization is data parallelism over independent genotypes). -/
def ObjectiveFunc.fitnessRun (f : ObjectiveFunc) (pop : Population)
    (adjusted : Bool := true) : List Int × ObjectiveFunc × Population × Nat :=
  let res :=
    if f.vectorized then
      let sols :=
        if f.recalculate then
          (pop.genotypes.zip pop.fitness_calculated).filterMap
            (fun p => if p.2 then none else some p.1)
        else pop.genotypes
      let fitness_new := sols.map f.objective
      let fitness_new :=
        if adjusted then
          (fitness_new.zip sols).map (fun p => f.factor * (p.1 - f.penalize p.2))
        else fitness_new
      if f.recalculate then
        (scatterNotCalc pop.fitness_calculated pop.fitness fitness_new, sols.length, true)
      else
        (fitness_new, sols.length, false)
    else
      (fitnessLoop f adjusted pop.genotypes pop.fitness_calculated pop.fitness,
       fitnessLoopCount f pop.genotypes pop.fitness_calculated, true)
  let delta : Int :=
    if f.recalculate then (pop.pop_size : Int)
    else (pop.pop_size : Int) - (pop.fitness_calculated.count true : Int)
  let f2 := { f with counter := f.counter + delta }
  let pop2 : Population :=
    { pop with
      fitness := if res.2.2 then res.1 else pop.fitness
      fitness_calculated := List.replicate pop.fitness_calculated.length true }
  (res.1, f2, pop2, res.2.1)

/-- The base-class `ObjectiveFunc.penalize` implementation: always 0. -/
def ObjectiveFunc.penalizeDefault : List Int → Int := fun _ => 0

end MHD

/-- Head of a stable descending insertion. -/
theorem headOptInsertDesc (key : α → Int) (x : α) (l : List α) :
    (MHD.insertDesc key x l).head? =
      some (match l.head? with
            | none => x
            | some y => if key x < key y then y else x) := by
  cases l with
  | nil => rfl
  | cons y ys => by_cases h : key x < key y <;> simp [MHD.insertDesc, h]

/-- The head of the stable descending sort is the earliest maximum. -/
theorem headOptSortDesc (key : α → Int) (l : List α) :
    (MHD.sortDesc key l).head? = MHD.earliestMaxBy key l := by
  induction l with
  | nil => rfl
  | cons x xs ih =>
    rw [MHD.sortDesc, headOptInsertDesc, MHD.earliestMaxBy, ← ih]
    cases (MHD.sortDesc key xs).head? with
    | none => rfl
    | some m => by_cases h : key x < key m <;> simp [h]

/-- The earliest maximum exists exactly on non-empty lists. -/
theorem earliestMaxBy_eq_none (key : α → Int) (l : List α) :
    MHD.earliestMaxBy key l = none ↔ l = [] := by
  cases l with
  | nil => simp [MHD.earliestMaxBy]
  | cons x xs =>
    simp only [MHD.earliestMaxBy]
    cases MHD.earliestMaxBy key xs with
    | none => simp
    | some m => by_cases h : key x < key m <;> simp [h]

/-- The earliest maximum is a member of the list. -/
theorem earliestMaxBy_mem (key : α → Int) (l : List α) :
    ∀ m, MHD.earliestMaxBy key l = some m → m ∈ l := by
  induction l with
  | nil => intro m h; simp [MHD.earliestMaxBy] at h
  | cons x xs ih =>
    intro m h
    cases hm : MHD.earliestMaxBy key xs with
    | none =>
      simp only [MHD.earliestMaxBy, hm] at h
      simp at h
      simp [h]
    | some m' =>
      simp only [MHD.earliestMaxBy, hm] at h
      by_cases hk : key x < key m'
      · rw [if_pos hk] at h
        injection h with h
        subst h
        exact List.mem_cons_of_mem _ (ih _ hm)
      · rw [if_neg hk] at h
        injection h with h
        subst h
        simp

/-- Every key in the list is bounded by the earliest maximum's key. -/
theorem earliestMaxBy_le (key : α → Int) (l : List α) :
    ∀ m, MHD.earliestMaxBy key l = some m → ∀ x ∈ l, key x ≤ key m := by
  induction l with
  | nil => intro m h; simp [MHD.earliestMaxBy] at h
  | cons x xs ih =>
    intro m h
    cases hm : MHD.earliestMaxBy key xs with
    | none =>
      simp only [MHD.earliestMaxBy, hm] at h
      simp at h
      have hnil : xs = [] := (earliestMaxBy_eq_none key xs).mp hm
      subst hnil
      simp [← h]
    | some m' =>
      simp only [MHD.earliestMaxBy, hm] at h
      by_cases hk : key x < key m'
      · rw [if_pos hk] at h
        injection h with h
        subst h
        intro a ha
        rcases List.mem_cons.mp ha with rfl | ha'
        · exact le_of_lt hk
        · exact ih _ hm a ha'
      · rw [if_neg hk] at h
        injection h with h
        subst h
        intro a ha
        rcases List.mem_cons.mp ha with rfl | ha'
        · exact le_refl _
        · exact le_trans (ih _ hm a ha') (not_lt.mp hk)

/-- C2: on a non-empty population, `ES.best_solution` returns the vector of
the earliest individual of maximal adjusted fitness (Python's stable sort
with `reverse=True` keeps population order among equal fitness values, so
index 0 of the sorted list is the earliest maximum), and the reported
fitness undoes the minimize-mode negation: for a minimize-mode objective
with no penalty it equals the raw objective value of that individual. -/
theorem C2_best_solution (objf : MHD.ESObjective) (pop : List MHD.ESIndiv)
    (h : pop ≠ []) :
    ∃ best, MHD.earliestMaxBy objf.fit pop = some best ∧
      (∀ ind ∈ pop, objf.fit ind ≤ objf.fit best) ∧
      MHD.ES.bestSolution objf pop =
        some (best.vector,
          if objf.opt = "min" then -(objf.fit best) else objf.fit best) ∧
      (objf.opt = "min" → (∀ v, objf.penalize v = 0) →
        MHD.ES.bestSolution objf pop =
          some (best.vector, objf.objective best.vector)) := by
  obtain ⟨b, hb⟩ : ∃ b, MHD.earliestMaxBy objf.fit pop = some b := by
    cases hq : MHD.earliestMaxBy objf.fit pop with
    | none => exact absurd ((earliestMaxBy_eq_none _ _).mp hq) h
    | some b => exact ⟨b, rfl⟩
  have hs : (MHD.sortDesc objf.fit pop).head? = some b := by
    rw [headOptSortDesc, hb]
  obtain ⟨t, ht⟩ : ∃ t, MHD.sortDesc objf.fit pop = b :: t := by
    cases hq : MHD.sortDesc objf.fit pop with
    | nil => rw [hq] at hs; simp at hs
    | cons a t =>
      rw [hq] at hs
      simp at hs
      exact ⟨t, by rw [hs]⟩
  refine ⟨b, hb, earliestMaxBy_le _ _ _ hb, ?_, ?_⟩
  · simp [MHD.ES.bestSolution, ht]
  · intro hmin hpen
    simp [MHD.ES.bestSolution, ht, MHD.ESObjective.fit, hmin, hpen]

/-- C2 applied to a concrete minimize-mode population: the raw objective of
a vector is its sum; the population holds vectors summing to 3, 1, 2, so
the best individual is the one at vector `[1]`. -/
theorem C2_best_solution_witness :
    ([(⟨[3]⟩ : MHD.ESIndiv), ⟨[1]⟩, ⟨[2]⟩] ≠ ([] : List MHD.ESIndiv)) ∧
    (∃ best,
      MHD.earliestMaxBy
        (MHD.ESObjective.fit ⟨"min", fun g => g.sum, fun _ => 0, fun g => g⟩)
        [⟨[3]⟩, ⟨[1]⟩, ⟨[2]⟩] = some best ∧
      (∀ ind ∈ [(⟨[3]⟩ : MHD.ESIndiv), ⟨[1]⟩, ⟨[2]⟩],
        MHD.ESObjective.fit ⟨"min", fun g => g.sum, fun _ => 0, fun g => g⟩ ind ≤
          MHD.ESObjective.fit ⟨"min", fun g => g.sum, fun _ => 0, fun g => g⟩ best) ∧
      MHD.ES.bestSolution ⟨"min", fun g => g.sum, fun _ => 0, fun g => g⟩
          [⟨[3]⟩, ⟨[1]⟩, ⟨[2]⟩] =
        some (best.vector,
          if (MHD.ESObjective.mk "min" (fun g => g.sum) (fun _ => 0) (fun g => g)).opt = "min"
          then -(MHD.ESObjective.fit ⟨"min", fun g => g.sum, fun _ => 0, fun g => g⟩ best)
          else MHD.ESObjective.fit ⟨"min", fun g => g.sum, fun _ => 0, fun g => g⟩ best) ∧
      ((MHD.ESObjective.mk "min" (fun g => g.sum) (fun _ => 0) (fun g => g)).opt = "min" →
        (∀ v, (MHD.ESObjective.mk "min" (fun g => g.sum) (fun _ => 0) (fun g => g)).penalize v = 0) →
        MHD.ES.bestSolution ⟨"min", fun g => g.sum, fun _ => 0, fun g => g⟩
            [⟨[3]⟩, ⟨[1]⟩, ⟨[2]⟩] =
          some (best.vector,
            (MHD.ESObjective.mk "min" (fun g => g.sum) (fun _ => 0) (fun g => g)).objective best.vector))) :=
  ⟨by decide,
    C2_best_solution ⟨"min", fun g => g.sum, fun _ => 0, fun g => g⟩
      [⟨[3]⟩, ⟨[1]⟩, ⟨[2]⟩] (by decide)⟩

/-- Unrolling of the `ES.perturb` offspring loop: starting from any
accumulated list, the loop appends one `perturbStep` result per iteration
until the accumulated length reaches `size`. -/
theorem perturbGo_spec (es : MHD.ES) (pl : List MHD.ESIndiv) (rng : Nat → Nat) :
    ∀ (k : Nat) (acc : List MHD.ESIndiv), es.size - acc.length ≤ k →
      es.perturbGo pl rng acc =
        acc ++ (List.range' acc.length (es.size - acc.length)).map
          (fun i => es.perturbStep pl (rng i)) := by
  intro k
  induction k with
  | zero =>
    intro acc hk
    have h : ¬ acc.length < es.size := by omega
    have h0 : es.size - acc.length = 0 := by omega
    rw [MHD.ES.perturbGo, if_neg h, h0]
    simp
  | succ n ih =>
    intro acc hk
    rw [MHD.ES.perturbGo]
    by_cases h : acc.length < es.size
    · rw [if_pos h, ih _ (by simp; omega)]
      have h2 : es.size - acc.length = (es.size - (acc.length + 1)) + 1 := by omega
      rw [h2, List.range'_succ]
      simp
    · rw [if_neg h]
      have h0 : es.size - acc.length = 0 := by omega
      rw [h0]
      simp

/-- Closed form of `ES.perturb`: one offspring per loop iteration, exactly
`size` iterations. -/
theorem perturb_eq (es : MHD.ES) (pl : List MHD.ESIndiv) (rng : Nat → Nat) :
    es.perturb pl rng =
      (List.range' 0 es.size).map (fun i => es.perturbStep pl (rng i)) := by
  rw [MHD.ES.perturb, perturbGo_spec es pl rng es.size [] (by simp)]
  simp

/-- C4 counterexample: the claim that `ES.perturb` returns exactly
`n_offspring` (the `offspringSize` parameter) offspring is false: the loop
guard is `len(offspring) < self.size`, so an ES constructed with
`popSize = 2` and `offspringSize = 3` produces 2 offspring, not
`n_offspring = 3`. -/
theorem C4_offspring_count_counterexample :
    (MHD.ES.perturb
        (MHD.ES.init ⟨"max", fun _ => 0, fun _ => 0, fun g => g⟩
          (fun ind _ => ind.vector) (fun ind _ => ind.vector)
          ⟨some 2, some 3⟩ [])
        [⟨[7]⟩] (fun _ => 0)).length = 2 ∧
    (MHD.ES.init ⟨"max", fun _ => 0, fun _ => 0, fun g => g⟩
        (fun ind _ => ind.vector) (fun ind _ => ind.vector)
        ⟨some 2, some 3⟩ []).n_offspring = 3 ∧
    (MHD.ES.perturb
        (MHD.ES.init ⟨"max", fun _ => 0, fun _ => 0, fun g => g⟩
          (fun ind _ => ind.vector) (fun ind _ => ind.vector)
          ⟨some 2, some 3⟩ [])
        [⟨[7]⟩] (fun _ => 0)).length ≠
      (MHD.ES.init ⟨"max", fun _ => 0, fun _ => 0, fun g => g⟩
          (fun ind _ => ind.vector) (fun ind _ => ind.vector)
          ⟨some 2, some 3⟩ []).n_offspring := by
  refine ⟨?_, rfl, ?_⟩ <;> rw [perturb_eq] <;> simp [MHD.ES.init]

/-- C4 (amended): `ES.perturb` loops crossover-then-mutation, discards
nothing, and returns exactly `self.size` (the `popSize` parameter, not
`n_offspring`) offspring — the two counts agree only when `offspringSize`
is left at its default. Each offspring's genotype is the result of
`check_bounds` applied after mutation (itself fed the `check_bounds`-clipped
crossover result) before being wrapped as a new individual. -/
theorem C4_perturb_amended (es : MHD.ES) (pl : List MHD.ESIndiv)
    (rng : Nat → Nat) :
    es.perturb pl rng =
      (List.range' 0 es.size).map (fun i =>
        (⟨es.objfunc.check_bounds
            (es.mutation_op
              ⟨es.objfunc.check_bounds
                  (es.cross_op (pl.getD (rng i % pl.length) ⟨[]⟩) pl)⟩
              es.population)⟩ : MHD.ESIndiv)) ∧
    (es.perturb pl rng).length = es.size := by
  have h := perturb_eq es pl rng
  constructor
  · rw [h]; rfl
  · rw [h]; simp

/-- C3: `OperatorSplit.evolve` does not implement the masked parallel
combination. At mask `[0,1,0,1]` on the 4-dimensional genotype `[1,2,3,4]`
with operator 0 adding 1 to every position and operator 1 replacing every
position by the genotype sum: the method as written raises `NameError`
(unbound `op_list`); the spec-intended combination yields `[2,10,4,10]`
(both operators applied to the original individual); and even under the
charitable `self.op_list` reading the loop yields `[2,12,4,12]`, because
operator 1 is evaluated against the partially overwritten individual
(sum 12 of `[2,2,4,4]`) instead of the original (sum 10 of `[1,2,3,4]`). -/
theorem C3_operator_split_code_bug :
    MHD.OperatorSplit.evolveRun
        ⟨[⟨fun i _ => ⟨i.genotype.map (· + 1)⟩⟩,
          ⟨fun i _ => ⟨i.genotype.map (fun _ => i.genotype.sum)⟩⟩], [0, 1, 0, 1]⟩
        ⟨[1, 2, 3, 4]⟩ [] =
      Except.error "NameError: name op_list is not defined" ∧
    MHD.maskedCombine
        [⟨fun i _ => ⟨i.genotype.map (· + 1)⟩⟩,
         ⟨fun i _ => ⟨i.genotype.map (fun _ => i.genotype.sum)⟩⟩] [0, 1, 0, 1]
        ⟨[1, 2, 3, 4]⟩ [] = [2, 10, 4, 10] ∧
    (MHD.OperatorSplit.evolveLoop
        ⟨[⟨fun i _ => ⟨i.genotype.map (· + 1)⟩⟩,
          ⟨fun i _ => ⟨i.genotype.map (fun _ => i.genotype.sum)⟩⟩], [0, 1, 0, 1]⟩
        ⟨[1, 2, 3, 4]⟩ []).genotype = [2, 12, 4, 12] ∧
    ([2, 12, 4, 12] : List Int) ≠ [2, 10, 4, 10] :=
  ⟨rfl, rfl, rfl, by decide⟩

/-- C5: `OperatorSplit.evolve` violates the no-mutation contract. Under the
charitable reading that makes its loop reachable, the loop assigns into the
input individual's genotype in place (the returned state is the caller's
individual after the call), leaving `[6,28,8,28]` where the caller held
`[5,6,7,8]`; and the method as actually written raises `NameError`, so no
fresh genotype is ever returned either. -/
theorem C5_operator_split_mutates_input :
    (MHD.OperatorSplit.evolveLoop
        ⟨[⟨fun i _ => ⟨i.genotype.map (· + 1)⟩⟩,
          ⟨fun i _ => ⟨i.genotype.map (fun _ => i.genotype.sum)⟩⟩], [0, 1, 0, 1]⟩
        ⟨[5, 6, 7, 8]⟩ []).genotype = [6, 28, 8, 28] ∧
    (MHD.OperatorSplit.evolveLoop
        ⟨[⟨fun i _ => ⟨i.genotype.map (· + 1)⟩⟩,
          ⟨fun i _ => ⟨i.genotype.map (fun _ => i.genotype.sum)⟩⟩], [0, 1, 0, 1]⟩
        ⟨[5, 6, 7, 8]⟩ []).genotype ≠ (⟨[5, 6, 7, 8]⟩ : MHD.SplitIndiv).genotype ∧
    MHD.OperatorSplit.evolveRun
        ⟨[⟨fun i _ => ⟨i.genotype.map (· + 1)⟩⟩,
          ⟨fun i _ => ⟨i.genotype.map (fun _ => i.genotype.sum)⟩⟩], [0, 1, 0, 1]⟩
        ⟨[5, 6, 7, 8]⟩ [] =
      Except.error "NameError: name op_list is not defined" :=
  ⟨rfl, by decide, rfl⟩

/-- Entry `i` of the non-vectorized fitness loop, when entry `i` is newly
evaluated, is the adjusted value `factor * (objective - penalize)` of
solution `i`. -/
theorem fitnessLoop_getD (f : MHD.ObjectiveFunc) :
    ∀ (i : Nat) (ss : List (List Int)) (cs : List Bool) (olds : List Int),
      i < ss.length → i < cs.length → i < olds.length →
      (f.recalculate = true ∨ cs.getD i true = false) →
      (MHD.fitnessLoop f true ss cs olds).getD i 0 =
        f.factor * (f.objective (ss.getD i []) - f.penalize (ss.getD i [])) := by
  intro i
  induction i with
  | zero =>
    intro ss cs olds h1 h2 h3 hev
    match ss, cs, olds with
    | s :: ss', c :: cs', old :: olds' =>
      rcases hev with hr | hc
      · simp [MHD.fitnessLoop, hr]
      · simp at hc
        simp [MHD.fitnessLoop, hc]
  | succ n ih =>
    intro ss cs olds h1 h2 h3 hev
    match ss, cs, olds with
    | s :: ss', c :: cs', old :: olds' =>
      simp only [MHD.fitnessLoop, List.getD_cons_succ]
      exact ih ss' cs' olds' (by simpa using h1) (by simpa using h2)
        (by simpa using h3) (by simpa using hev)

/-- C7: for an `ObjectiveFunc` constructed with minimize mode, every newly
evaluated solution of a non-vectorized `fitness` call receives the adjusted
value `-(objective(solution) - penalize(solution))`; with maximize mode it
receives `objective(solution) - penalize(solution)` (`factor` is `-1` for
`"min"` and `1` for `"max"`), and the base-class default `penalize` returns
0 on every input. -/
theorem C7_adjusted_fitness (mode nm : String) (recalc : Bool)
    (obj pen : List Int → Int) (f : MHD.ObjectiveFunc)
    (hf : MHD.ObjectiveFunc.init obj mode nm false recalc pen = Except.ok f)
    (pop : MHD.Population) (i : Nat)
    (h1 : i < pop.genotypes.length) (h2 : i < pop.fitness_calculated.length)
    (h3 : i < pop.fitness.length)
    (hev : recalc = true ∨ pop.fitness_calculated.getD i true = false) :
    (f.fitnessRun pop true).1.getD i 0 =
      (if mode = "min" then -1 else 1) *
        (obj (pop.genotypes.getD i []) - pen (pop.genotypes.getD i [])) ∧
    (mode = "min" → f.factor = -1) ∧
    (mode = "max" → f.factor = 1) ∧
    (∀ s, MHD.ObjectiveFunc.penalizeDefault s = 0) := by
  by_cases hmin : mode = "min"
  · subst hmin
    simp [MHD.ObjectiveFunc.init] at hf
    subst hf
    refine ⟨?_, fun _ => rfl, fun hc => absurd hc (by decide), fun s => rfl⟩
    simp only [MHD.ObjectiveFunc.fitnessRun, if_neg (by decide : ¬ false = true)]
    simpa using fitnessLoop_getD
      { name := nm, counter := 0, factor := -1, vectorized := false,
        recalculate := recalc, mode := "min", objective := obj, penalize := pen }
      i pop.genotypes pop.fitness_calculated pop.fitness h1 h2 h3 hev
  · by_cases hmax : mode = "max"
    · subst hmax
      simp [MHD.ObjectiveFunc.init] at hf
      subst hf
      refine ⟨?_, fun hc => absurd hc (by decide), fun _ => rfl, fun s => rfl⟩
      simp only [MHD.ObjectiveFunc.fitnessRun, if_neg (by decide : ¬ false = true)]
      simpa using fitnessLoop_getD
        { name := nm, counter := 0, factor := 1, vectorized := false,
          recalculate := recalc, mode := "max", objective := obj, penalize := pen }
        i pop.genotypes pop.fitness_calculated pop.fitness h1 h2 h3 hev
    · simp [MHD.ObjectiveFunc.init, hmin, hmax] at hf

/-- C7 applied to a concrete minimize-mode objective function: vector sums,
population of two solutions `[4]` and `[5]` with entry 0 not yet
calculated. -/
theorem C7_adjusted_fitness_witness :
    (MHD.ObjectiveFunc.init (fun g => g.sum) "min" "w" false false (fun _ => 0) =
        Except.ok { name := "w", counter := 0, factor := -1, vectorized := false,
                    recalculate := false, mode := "min",
                    objective := fun g => g.sum, penalize := fun _ => 0 } ∧
      0 < (( ⟨[0, 0], [false, true], [[4], [5]], 2⟩ : MHD.Population)).genotypes.length ∧
      0 < (( ⟨[0, 0], [false, true], [[4], [5]], 2⟩ : MHD.Population)).fitness_calculated.length ∧
      0 < (( ⟨[0, 0], [false, true], [[4], [5]], 2⟩ : MHD.Population)).fitness.length ∧
      (false = true ∨
        (( ⟨[0, 0], [false, true], [[4], [5]], 2⟩ : MHD.Population)).fitness_calculated.getD 0 true = false)) ∧
    ((MHD.ObjectiveFunc.fitnessRun
        { name := "w", counter := 0, factor := -1, vectorized := false,
          recalculate := false, mode := "min",
          objective := fun g => g.sum, penalize := fun _ => 0 }
        ⟨[0, 0], [false, true], [[4], [5]], 2⟩ true).1.getD 0 0 =
      (if ("min" : String) = "min" then -1 else 1) *
        ((fun (g : List Int) => g.sum)
            ((( ⟨[0, 0], [false, true], [[4], [5]], 2⟩ : MHD.Population)).genotypes.getD 0 []) -
          (fun (_ : List Int) => (0 : Int))
            ((( ⟨[0, 0], [false, true], [[4], [5]], 2⟩ : MHD.Population)).genotypes.getD 0 [])) ∧
      (("min" : String) = "min" →
        ({ name := "w", counter := 0, factor := -1, vectorized := false,
           recalculate := false, mode := "min",
           objective := fun g => g.sum,
           penalize := fun _ => 0 } : MHD.ObjectiveFunc).factor = -1) ∧
      (("min" : String) = "max" →
        ({ name := "w", counter := 0, factor := -1, vectorized := false,
           recalculate := false, mode := "min",
           objective := fun g => g.sum,
           penalize := fun _ => 0 } : MHD.ObjectiveFunc).factor = 1) ∧
      (∀ s, MHD.ObjectiveFunc.penalizeDefault s = 0)) :=
  ⟨⟨rfl, by decide, by decide, by decide, Or.inr rfl⟩,
    C7_adjusted_fitness "min" "w" false (fun g => g.sum) (fun _ => 0)
      { name := "w", counter := 0, factor := -1, vectorized := false,
        recalculate := false, mode := "min",
        objective := fun g => g.sum, penalize := fun _ => 0 }
      rfl ⟨[0, 0], [false, true], [[4], [5]], 2⟩ 0
      (by decide) (by decide) (by decide) (Or.inr rfl)⟩

/-- C9: constructing an `ObjectiveFunc` with a mode string other than
`"max"` or `"min"` raises `ValueError` at construction time: no object is
produced and no default mode is substituted. -/
theorem C9_mode_validation (obj : List Int → Int) (mode nm : String)
    (vec recalc : Bool) (pen : List Int → Int)
    (h1 : mode ≠ "max") (h2 : mode ≠ "min") :
    MHD.ObjectiveFunc.init obj mode nm vec recalc pen =
      Except.error "ValueError: Optimization objective (mode) must be \"min\" or \"max\"." := by
  simp [MHD.ObjectiveFunc.init, h1, h2]

/-- C9 applied to the unknown mode string `"foo"`. -/
theorem C9_mode_validation_witness :
    (("foo" : String) ≠ "max" ∧ ("foo" : String) ≠ "min") ∧
    MHD.ObjectiveFunc.init (fun g => g.sum) "foo" "nm" false false (fun _ => 0) =
      Except.error "ValueError: Optimization objective (mode) must be \"min\" or \"max\"." :=
  ⟨⟨by decide, by decide⟩,
    C9_mode_validation (fun g => g.sum) "foo" "nm" false false (fun _ => 0)
      (by decide) (by decide)⟩

/-- C10: the evaluation counter does not track the number of individuals
evaluated on the vectorized path. With `vectorized = True`,
`recalculate = True` and a 2-individual population whose first entry is
already calculated, the call passes exactly 1 solution to `objective` (the
filter keeps only uncalculated entries, the reverse of the documented
meaning of `recalculate`) yet increments the counter by `pop_size = 2`; the
`fitness_calculated` flags are still all set to 1 afterwards, and the
returned fitness is the old value scattered with the one new value. -/
theorem C10_vectorized_counter_mismatch :
    ∃ f, MHD.ObjectiveFunc.init (fun g => g.sum) "max" "nm" true true (fun _ => 0) =
        Except.ok f ∧
      (f.fitnessRun ⟨[5, 0], [true, false], [[1], [2]], 2⟩ true).2.2.2 = 1 ∧
      ((f.fitnessRun ⟨[5, 0], [true, false], [[1], [2]], 2⟩ true).2.1).counter =
        f.counter + 2 ∧
      ((f.fitnessRun ⟨[5, 0], [true, false], [[1], [2]], 2⟩ true).2.2.1).fitness_calculated =
        [true, true] ∧
      (f.fitnessRun ⟨[5, 0], [true, false], [[1], [2]], 2⟩ true).1 = [5, 2] ∧
      (((f.fitnessRun ⟨[5, 0], [true, false], [[1], [2]], 2⟩ true).2.1).counter - f.counter) ≠
        ((f.fitnessRun ⟨[5, 0], [true, false], [[1], [2]], 2⟩ true).2.2.2 : Int) :=
  ⟨{ name := "nm", counter := 0, factor := 1, vectorized := true,
     recalculate := true, mode := "max",
     objective := fun g => g.sum, penalize := fun _ => 0 },
    rfl, rfl, rfl, rfl, rfl, by decide⟩

/-- C6: on every input, `Indiv.reproduce` raises `NameError` (its return
statement references the undefined name `new_vector`) instead of returning
the repaired genotype wrapped in a new Individual; evaluated here at a
concrete individual, population and operator. -/
theorem C6_reproduce_name_error :
    MHD.Indiv.reproduce (fun s _ => MHD.Indiv.init (s.genotype.map (· + 1)))
      (fun g => g.map (fun x => min x 10)) (MHD.Indiv.init [1, 2]) [] =
    Except.error "NameError: name new_vector is not defined" := by
  rfl

/-- C8 counterexample: the claim "the stored best genotype is never replaced
by one that would worsen its fitness" is false. With objective values
`f [0] = 5`, `f [1] = 10`, `f [2] = 7`, an individual at genotype `[0]`
first stores `[1]` as best (5 < 10), and a second `store_best` call with a
candidate at `[2]` overwrites it (5 < 7), replacing a stored best of fitness
10 by one of fitness 7. -/
theorem C8_store_best_counterexample :
    let f : List Int → Int := fun g => if g = [1] then 10 else if g = [2] then 7 else 5
    let s1 := (MHD.Indiv.storeBest f (MHD.Indiv.init [0]) (MHD.Indiv.init [1])).1
    let s2 := (MHD.Indiv.storeBest f s1 (MHD.Indiv.init [2])).1
    s1.best = [1] ∧ s2.best = [2] ∧ f s2.best < f s1.best := by
  refine ⟨?_, ?_, ?_⟩ <;> decide

/-- C8 (amended): `store_best` compares the candidate's fitness with the
individual's own current fitness — not with the stored best's fitness — and
stores the candidate's genotype exactly when the candidate's fitness is
strictly greater; consequently a single call on a fresh individual (whose
stored best is still its own genotype and whose cache is empty) keeps
whichever of the two genotypes has the higher objective value, but across
several calls the stored best can be replaced by a worse-scoring genotype. -/
theorem C8_store_best_amended (f : List Int → Int) (self past : MHD.Indiv)
    (hb : self.best = self.genotype) (hs : self.fitness_calculated = false)
    (hp : past.fitness_calculated = false) :
    ((MHD.Indiv.storeBest f self past).1).best =
      (if f self.genotype < f past.genotype then past.genotype
       else self.genotype) ∧
    f ((MHD.Indiv.storeBest f self past).1).best =
      max (f self.genotype) (f past.genotype) := by
  rcases lt_or_ge (f self.genotype) (f past.genotype) with h | h
  · simp [MHD.Indiv.storeBest, MHD.Indiv.getFitness, hs, hp, hb, h,
      max_eq_right (le_of_lt h)]
  · simp [MHD.Indiv.storeBest, MHD.Indiv.getFitness, hs, hp, hb,
      not_lt.mpr h, max_eq_left h]

/-- C8 amended, applied at concrete inputs. -/
theorem C8_store_best_amended_witness :
    ((MHD.Indiv.init [0]).best = (MHD.Indiv.init [0]).genotype ∧
      (MHD.Indiv.init [0]).fitness_calculated = false ∧
      (MHD.Indiv.init [4]).fitness_calculated = false) ∧
    (((MHD.Indiv.storeBest (fun g => if g = [4] then 9 else 3)
        (MHD.Indiv.init [0]) (MHD.Indiv.init [4])).1).best =
      (if (fun (g : List Int) => if g = [4] then (9 : Int) else 3) (MHD.Indiv.init [0]).genotype <
          (fun (g : List Int) => if g = [4] then (9 : Int) else 3) (MHD.Indiv.init [4]).genotype
       then (MHD.Indiv.init [4]).genotype else (MHD.Indiv.init [0]).genotype) ∧
      (fun (g : List Int) => if g = [4] then (9 : Int) else 3)
          ((MHD.Indiv.storeBest (fun g => if g = [4] then 9 else 3)
            (MHD.Indiv.init [0]) (MHD.Indiv.init [4])).1).best =
        max ((fun (g : List Int) => if g = [4] then (9 : Int) else 3) (MHD.Indiv.init [0]).genotype)
          ((fun (g : List Int) => if g = [4] then (9 : Int) else 3) (MHD.Indiv.init [4]).genotype)) :=
  ⟨⟨rfl, rfl, rfl⟩,
    C8_store_best_amended (fun g => if g = [4] then 9 else 3)
      (MHD.Indiv.init [0]) (MHD.Indiv.init [4]) rfl rfl rfl⟩

/-- C1: reading the fitness of a freshly constructed individual twice returns
the identical value, the first read invokes the objective function exactly
once and caches, the second read invokes it zero times, and reassigning the
genotype of any individual clears `fitness_calculated` so that the next read
recomputes the objective on the new genotype. -/
theorem C1_fitness_cache (f : List Int → Int) (vector : List Int)
    (speed : Option (List Int)) :
    ((MHD.Indiv.init vector speed).getFitness f).1 =
      ((((MHD.Indiv.init vector speed).getFitness f).2.1).getFitness f).1 ∧
    ((MHD.Indiv.init vector speed).getFitness f).2.2 = 1 ∧
    ((((MHD.Indiv.init vector speed).getFitness f).2.1).getFitness f).2.2 = 0 ∧
    ((MHD.Indiv.init vector speed).getFitness f).1 = f vector ∧
    (∀ (j : MHD.Indiv) (g : List Int),
      (j.setGenotype g).fitness_calculated = false ∧
      ((j.setGenotype g).getFitness f).2.2 = 1 ∧
      ((j.setGenotype g).getFitness f).1 = f g) := by
  refine ⟨rfl, rfl, rfl, rfl, ?_⟩
  intro j g
  simp [MHD.Indiv.setGenotype, MHD.Indiv.getFitness]
